import Mathlib

/-!
Verification of the GenomicConsensus windowed parallel consensus engine.

This file shallowly embeds the parts of the repository relevant to the
stated properties:

* `ResultCollector._run` and the per-contig accounting of
  `ResultCollector._recordNewResults` / `_flushContigIfCompleted`
  (src/GenomicConsensus/ResultCollector.py);
* the interval filter, stumpy-alignment filter, no-evidence fallback and
  window re-mapping of the Quiver engine (src/GenomicConsensus/quiver/quiver.py);
* the VCF variant line formatting (src/GenomicConsensus/io/VariantsVcfWriter.py).

Python integers are embedded as `Nat` (all quantities involved are
non-negative), the float `readStumpinessThreshold` and allele frequencies as
rationals, and fallible paths as `Option`/`Except`.  Functions of the
repository keep their source names.  Definitions whose doc comment starts
with "Modelled from the spec:" correspond to code of this repository that is
not part of the four source files (for example `GenomicConsensus/windows.py`
and `GenomicConsensus/consensus.py`); they follow the specification text.
All definitions come first, then the theorems.
-/

namespace GenomicConsensus

/-- A reference window `(refId, refStart, refEnd)`: half-open, zero-based
coordinates on one contig. -/
abbrev Window := Nat × Nat × Nat

/-! ## Definitions: Coverage Interval Analyzer length filter

From `quiverConsensusAndVariantsForWindow` in quiver.py:

    intervals = [ (s, e)
                  for (s, e) in kSpannedIntervals(refWindow, ..., starts, ends)
                  if (e - s) > 10 ]
-/

/-- Length filter applied to the maximal k-spanned intervals in
`quiverConsensusAndVariantsForWindow` (quiver.py): an interval `(s, e)` is
kept exactly when `e - s > 10`. -/
def retainedIntervals (kSpanned : List (Nat × Nat)) : List (Nat × Nat) :=
  kSpanned.filter (fun i => decide (10 < i.2 - i.1))

/-! ## Definitions: stumpy alignment filter

From `filterAlnsForQuiver` in quiver.py:

    return [ aln for aln in alns
             if aln.readLength >= (quiverConfig.readStumpinessThreshold * aln.referenceSpan) ]
-/

/-- A clipped read alignment as seen by the Quiver window engine: reference
start/end of the aligned span and the length of actual read content inside
the clip. -/
structure Aln where
  tStart : Nat
  tEnd : Nat
  readLength : Nat
deriving DecidableEq, Repr

/-- Reference span of an alignment (pbcore accessor semantics:
`tEnd - tStart`). -/
def Aln.referenceSpan (a : Aln) : Nat :=
  a.tEnd - a.tStart

/-- The filter from `filterAlnsForQuiver` (quiver.py): keep alignments whose
read length is at least `readStumpinessThreshold` times the reference span of
that same alignment.  The threshold is a Python float (default 0.1), embedded
as a rational.  The source also computes `winLen` and `minimumReadLength` from
`refWindow` but never uses them; `refWindow` is kept in the signature for
fidelity. -/
def filterAlnsForQuiver (refWindow : Window) (alns : List Aln)
    (readStumpinessThreshold : ℚ) : List Aln :=
  let _ := refWindow
  alns.filter (fun aln =>
    decide (readStumpinessThreshold * (aln.referenceSpan : ℚ) ≤ (aln.readLength : ℚ)))

/-! ## Definitions: Result Collector per-contig accounting

From ResultCollector.py:

    def _recordNewResults(self, window, css, variants):
        refId, refStart, refEnd = window
        self.consensusChunksByRefId[refId].append(css)
        self.variantsByRefId[refId] += variants
        self.referenceBasesProcessedById[refId] += (refEnd - refStart)

    def _flushContigIfCompleted(self, window):
        ...
        if basesProcessed == requiredBases:
            # dump to file and delete the data structures
-/

/-- Per-contig state of the Result Collector: the running number of reference
bases processed for the contig and how many completion flushes have been
performed for it. -/
structure ContigState where
  basesProcessed : Nat
  numFlushes : Nat
deriving DecidableEq, Repr

/-- One result receipt for a fixed contig, embedding `_recordNewResults`
followed by `_flushContigIfCompleted` (ResultCollector.py): the chunk window
`(refStart, refEnd)` adds `refEnd - refStart` to `basesProcessed`, then the
contig is flushed exactly when `basesProcessed == requiredBases`. -/
def onResultForContig (requiredBases : Nat) (st : ContigState) (w : Nat × Nat) :
    ContigState :=
  if st.basesProcessed + (w.2 - w.1) = requiredBases then
    ⟨st.basesProcessed + (w.2 - w.1), st.numFlushes + 1⟩
  else
    ⟨st.basesProcessed + (w.2 - w.1), st.numFlushes⟩

/-- Receipt of a sequence of chunk windows for one contig, in arrival order,
starting from the fresh state allocated by `onStart`. -/
def collectorContigRun (requiredBases : Nat) (ws : List (Nat × Nat)) : ContigState :=
  ws.foldl (onResultForContig requiredBases) ⟨0, 0⟩

/-- Total number of reference bases covered by a list of chunk windows. -/
def sumLens (ws : List (Nat × Nat)) : Nat :=
  (ws.map (fun w => w.2 - w.1)).sum

/-! ## Definitions: Result Collector main loop

From ResultCollector.py:

    def _run(self):
        self.onStart()
        sentinelsReceived = 0
        while sentinelsReceived < options.numWorkers:
            result = self._resultsQueue.get()
            if result is None:
                sentinelsReceived += 1
            else:
                self.onResult(result)
        self.onFinish()

The results queue is embedded as a finite stream of deliveries: `none` is a
worker termination sentinel, `some r` a real result.  A `queue.get()` on an
exhausted stream blocks forever, which the embedding returns as `none`;
normal termination returns `some l` where `l` lists the results passed to
`onResult`, in order.
-/

/-- The `while sentinelsReceived < numWorkers` loop of `ResultCollector._run`. -/
def collectorLoop (numWorkers : Nat) :
    Nat → List α → List (Option α) → Option (List α)
  | s, acc, [] =>
      if numWorkers ≤ s then some acc else none
  | s, acc, none :: rest =>
      if numWorkers ≤ s then some acc
      else collectorLoop numWorkers (s + 1) acc rest
  | s, acc, some r :: rest =>
      if numWorkers ≤ s then some acc
      else collectorLoop numWorkers s (acc ++ [r]) rest

/-- `ResultCollector._run` on a delivered stream: start with zero sentinels
and no processed results. -/
def collectorRun (numWorkers : Nat) (queue : List (Option α)) : Option (List α) :=
  collectorLoop numWorkers 0 [] queue

/-- Number of sentinel (`None`) items in a delivered stream. -/
def numSentinels (queue : List (Option α)) : Nat :=
  queue.countP (fun x => x.isNone)

/-- The real results delivered strictly before the `n`-th sentinel of the
stream (all of the stream if it holds fewer than `n` sentinels); for `n = 0`
no item at all. -/
def resultsBeforeNthSentinel (n : Nat) : List (Option α) → List α
  | [] => []
  | x :: rest =>
    if n = 0 then []
    else
      match x with
      | some r => r :: resultsBeforeNthSentinel n rest
      | none => if n = 1 then [] else resultsBeforeNthSentinel (n - 1) rest

/-! ## Definitions: window-intersection merge

From `_flushContigIfCompleted` (ResultCollector.py):

    chunksThisSpan = [ chunk for chunk in self.consensusChunksByRefId[refId]
                       if windows.windowsIntersect(chunk.refWindow, span) ]
    css = consensus.join(chunksThisSpan)

`windows.windowsIntersect` and `consensus.join` live in repository files that
are not among the provided sources; they are modelled from the spec.
-/

/-- A consensus object (`Consensus` of GenomicConsensus/consensus.py, also
used as the `ConsensusChunk` of the data model): a reference window, a
sequence, and a per-base confidence with `len(sequence) == len(confidence)`
intended. -/
structure Consensus where
  refWindow : Window
  sequence : String
  confidence : List Nat
deriving DecidableEq, Repr

/-- Window start of a consensus chunk. -/
def Consensus.winStart (c : Consensus) : Nat :=
  c.refWindow.2.1

/-- Modelled from the spec: `windows.windowsIntersect`
(GenomicConsensus/windows.py, not among the provided source files) decides
closed/open interval intersection of two windows on the same contig. -/
def windowsIntersect (w1 w2 : Window) : Bool :=
  decide (w1.1 = w2.1 ∧ w1.2.1 < w2.2.2 ∧ w2.2.1 < w1.2.2)

/-- Concatenation of the sequences and confidences of an already sorted list
of chunks. -/
def joinSortedChunks (sortedChunks : List Consensus) : String × List Nat :=
  (String.join (sortedChunks.map (fun c => c.sequence)),
   (sortedChunks.map (fun c => c.confidence)).flatten)

/-- Modelled from the spec: `consensus.join`
(GenomicConsensus/consensus.py, not among the provided source files)
concatenates the sequences and confidences of the given chunks in ascending
order of window start. -/
def joinChunks (chunks : List Consensus) : String × List Nat :=
  joinSortedChunks (chunks.mergeSort (fun a b => decide (a.winStart ≤ b.winStart)))

/-- Chunk selection and merge for one output span, from
`_flushContigIfCompleted` (ResultCollector.py): keep the chunks whose window
intersects the span, then join them. -/
def chunksForSpan (chunks : List Consensus) (span : Window) : String × List Nat :=
  joinChunks (chunks.filter (fun c => windowsIntersect c.refWindow span))

/-! ## Definitions: no-evidence fallback for a sub-interval

From `quiverConsensusAndVariantsForWindow` (quiver.py):

    if len([ aln for aln in clippedAlns
             if aln.spansReferenceRange(*interval) ]) >= quiverConfig.minPoaCoverage:
        css = quiverConsensusForAlignments(subWin, intRefSeq, clippedAlns, quiverConfig)
    else:
        cssSeq = noEvidenceConsensusFactory(intRefSeq)
        css = Consensus(subWin, cssSeq, [0]*len(cssSeq))
-/

/-- Modelled from the spec: pbcore `aln.spansReferenceRange(s, e)` holds when
the alignment fully spans the sub-interval, that is `tStart ≤ s` and
`e ≤ tEnd`. -/
def Aln.spansReferenceRange (a : Aln) (s e : Nat) : Bool :=
  decide (a.tStart ≤ s ∧ e ≤ a.tEnd)

/-- Per-sub-interval consensus selection from
`quiverConsensusAndVariantsForWindow` (quiver.py): when at least
`minPoaCoverage` clipped alignments fully span the interval, the result of
the external consensus algorithm is used (passed in abstractly as `realCss`);
otherwise the configured no-evidence consensus factory synthesizes a
placeholder from the reference sub-sequence, with zero confidence at every
position. -/
def consensusForInterval (minPoaCoverage : Nat) (subWin : Window)
    (intRefSeq : String) (clippedAlns : List Aln) (interval : Nat × Nat)
    (noEvidenceConsensusFactory : String → String)
    (realCss : Consensus) : Consensus :=
  if minPoaCoverage ≤
      (clippedAlns.filter
        (fun aln => aln.spansReferenceRange interval.1 interval.2)).length
  then realCss
  else
    let cssSeq := noEvidenceConsensusFactory intRefSeq
    ⟨subWin, cssSeq, List.replicate cssSeq.length 0⟩

/-! ## Definitions: window re-mapping in `QuiverWorker.onChunk`

From quiver.py:

    ga = cc.Align(refSequenceInEnlargedWindow, css_.sequence)
    targetPositions = cc.TargetToQueryPositions(ga)
    cssStart = targetPositions[refStart-eStart]
    cssEnd   = targetPositions[refEnd-eStart]
    cssSequence    = css_.sequence[cssStart:cssEnd]
    cssQv          = css_.confidence[cssStart:cssEnd]
    variants       = [ v for v in variants_
                       if refStart <= v.refStart < refEnd ]
    return QuiverWindowSummary(refId, refStart, refEnd, cssSequence, cssQv, variants)
-/

/-- A called variant (the GenomicConsensus variant data model of the spec):
reference id and 0-based start, reference allele with its anchoring previous
base, the anchoring previous base on the read side, one or two called alleles
(the second one present exactly for heterozygous variants), optional
per-allele frequencies, a confidence and a coverage. -/
structure Variant where
  refId : Nat
  refStart : Nat
  refSeq : String
  refPrev : String
  readPrev : String
  readSeq1 : String
  readSeq2 : Option String
  frequency1 : Option Nat
  frequency2 : Option Nat
  confidence : Nat
  coverage : Nat
deriving DecidableEq, Repr

/-- A variant is heterozygous when it carries a second called allele. -/
def Variant.isHeterozygous (v : Variant) : Bool :=
  v.readSeq2.isSome

/-- Modelled from the spec: `reference.enlargedReferenceWindow`
(GenomicConsensus/reference.py, not among the provided source files) enlarges
a window symmetrically by `overlap` bases on each side, clamped to the contig
bounds (natural subtraction clamps the start at zero). -/
def enlargedReferenceWindow (w : Window) (contigLength overlap : Nat) : Window :=
  (w.1, w.2.1 - overlap, min contigLength (w.2.2 + overlap))

/-- The wire-protocol record produced by `QuiverWorker.onChunk` (quiver.py). -/
structure QuiverWindowSummary where
  referenceId : Nat
  referenceStart : Nat
  referenceEnd : Nat
  consensus : String
  qv : List Nat
  variants : List Variant
deriving DecidableEq, Repr

/-- Re-mapping step of `QuiverWorker.onChunk` (quiver.py).  The enlarged
window is computed by `enlargedReferenceWindow`; the enlarged-window
consensus (`cssSeq`, `cssConf`, `variants_`) and the target-to-query position
mapping of the external aligner (`targetPositions`, one entry per position of
the enlarged reference) are passed in abstractly.  The consensus sequence and
confidence are sliced between the mapped offsets of the original window
bounds, and the variants are filtered to `refStart ≤ v.refStart < refEnd`. -/
def onChunk (referenceWindow : Window) (contigLength overlap : Nat)
    (targetPositions : List Nat)
    (cssSeq : String) (cssConf : List Nat) (variants_ : List Variant) :
    QuiverWindowSummary :=
  let refId := referenceWindow.1
  let refStart := referenceWindow.2.1
  let refEnd := referenceWindow.2.2
  let eStart := (enlargedReferenceWindow referenceWindow contigLength overlap).2.1
  let cssStart := targetPositions.getD (refStart - eStart) 0
  let cssEnd := targetPositions.getD (refEnd - eStart) 0
  { referenceId := refId
    referenceStart := refStart
    referenceEnd := refEnd
    consensus := ((cssSeq.toList.take cssEnd).drop cssStart).asString
    qv := (cssConf.take cssEnd).drop cssStart
    variants := variants_.filter
      (fun v => decide (refStart ≤ v.refStart ∧ v.refStart < refEnd)) }

/-! ## Definitions: VCF variant line formatting

From VariantsVcfWriter.py, `vcfVariantFrequency` and
`VariantsVcfWriter.writeVariants`.
-/

/-- Python `sep.join(parts)` on a list of strings. -/
def pyJoin (sep : String) : List String → String
  | [] => ""
  | [x] => x
  | x :: xs => x ++ sep ++ pyJoin sep xs

/-- vcfVariantFrequency from VariantsVcfWriter.py: for a heterozygous variant
with known frequencies, the `AF=` info field value, each listed allele
frequency normalized by the sum of the two frequencies.  `fmt` abstracts the
Python float rendering `'{:.3g}'.format`.  In the source `frequency2` is
always present when the variant is heterozygous and `frequency1` is known (a
missing one would raise in the addition); the embedding totalizes the sum
with a default of 0. -/
def vcfVariantFrequency (fmt : ℚ → String) (var : Variant) (labels : List Nat) :
    Option String :=
  match var.frequency1 with
  | none => none
  | some f1 =>
    if var.isHeterozygous then
      let denom : ℚ := (f1 : ℚ) + ((var.frequency2.getD 0 : Nat) : ℚ)
      let freqs : List Nat :=
        labels.filterMap (fun l => if l = 1 then var.frequency1 else var.frequency2)
      some ("AF=" ++ pyJoin "," (freqs.map (fun f => fmt ((f : ℚ) / denom))))
    else none

/-- A structured VCF data line `CHROM POS ID REF ALT QUAL FILTER INFO` as
printed by `VariantsVcfWriter.writeVariants`; the final text line is the
tab-separated rendering of these fields. -/
structure VcfLine where
  chrom : String
  pos : Nat
  id : String
  ref : String
  alt : String
  qual : Nat
  filter : String
  info : String
deriving DecidableEq, Repr

/-- The insertion-or-deletion test of `VariantsVcfWriter.writeVariants`
(VariantsVcfWriter.py, line 72): some called or reference allele is empty. -/
def isIndelVariant (var : Variant) : Bool :=
  decide (var.refSeq = "" ∨ var.readSeq1 = "" ∨
    (var.isHeterozygous = true ∧ var.readSeq2 = some ""))

/-- The POS / REF / ALT / labels computation of
`VariantsVcfWriter.writeVariants` (VariantsVcfWriter.py, lines 67 to 100):
an insertion or deletion (some empty allele) is anchored on the previous base
and keeps the 0-based position; a substitution is 1-indexed by incrementing
the position, and a heterozygous substitution drops a called allele equal to
the reference from ALT, narrowing the frequency labels accordingly. -/
def vcfPosRefAltLabels (var : Variant) : Nat × String × String × List Nat :=
  if isIndelVariant var then
    -- insertion or deletion: anchored on the previous base, so no 0- to
    -- 1-indexing correction required
    let ref := var.refPrev ++ var.refSeq
    let alt :=
      if var.isHeterozygous then
        pyJoin "," [var.readPrev ++ var.readSeq1, var.readPrev ++ var.readSeq2.getD ""]
      else var.readPrev ++ var.readSeq1
    (var.refStart, ref, alt, [1, 2])
  else
    -- substitution: due to 1-indexing, pos needs to be incremented
    let pos := var.refStart + 1
    let ref := var.refSeq
    if var.isHeterozygous then
      if var.refSeq = var.readSeq1 then
        -- first variant is same as wildtype
        (pos, ref, var.readSeq2.getD "", [2])
      else if var.readSeq2 = some var.refSeq then
        -- second variant is same as wildtype
        (pos, ref, var.readSeq1, [1])
      else
        -- both variants differ from wildtype
        (pos, ref, pyJoin "," [var.readSeq1, var.readSeq2.getD ""], [1, 2])
    else (pos, ref, var.readSeq1, [1, 2])

/-- The FILTER column of `VariantsVcfWriter.writeVariants`
(VariantsVcfWriter.py, lines 107 to 112): `PASS`, or the semicolon-joined
identifiers of the failed thresholds. -/
def vcfFilter (minConfidence minCoverage : Nat) (var : Variant) : String :=
  let failedFilters :=
    (if var.confidence < minConfidence then ["q" ++ toString minConfidence] else [])
    ++ (if var.coverage < minCoverage then ["c" ++ toString minCoverage] else [])
  if failedFilters.isEmpty then "PASS" else pyJoin ";" failedFilters

/-- The INFO column of `VariantsVcfWriter.writeVariants`
(VariantsVcfWriter.py, lines 101 to 104): always `DP=<coverage>`, extended
with the allele frequency field when `vcfVariantFrequency` produced one. -/
def vcfInfo (fmt : ℚ → String) (var : Variant) (labels : List Nat) : String :=
  let info := "DP=" ++ toString var.coverage
  match vcfVariantFrequency fmt var labels with
  | some freq => info ++ ";" ++ freq
  | none => info

/-- One VCF data line per variant, as printed by
`VariantsVcfWriter.writeVariants` (VariantsVcfWriter.py).  `idToFullName`
abstracts `reference.idToFullName`, `fmt` the float rendering of allele
frequencies. -/
def writeVariant (minConfidence minCoverage : Nat) (idToFullName : Nat → String)
    (fmt : ℚ → String) (var : Variant) : VcfLine :=
  let pral := vcfPosRefAltLabels var
  { chrom := idToFullName var.refId
    pos := pral.1
    id := "."
    ref := pral.2.1
    alt := pral.2.2.1
    qual := var.confidence
    filter := vcfFilter minConfidence minCoverage var
    info := vcfInfo fmt var pral.2.2.2 }

/-- `VariantsVcfWriter.writeVariants` over its variant list: one line per
variant, in order. -/
def writeVariants (minConfidence minCoverage : Nat) (idToFullName : Nat → String)
    (fmt : ℚ → String) (variants : List Variant) : List VcfLine :=
  variants.map (writeVariant minConfidence minCoverage idToFullName fmt)

/-- Example variant for concrete instantiations: the homozygous substitution
of the spec test vector (0-based position 9, reference `A`, call `G`,
coverage 12, confidence 50). -/
def exampleSubstVariant : Variant :=
  ⟨1, 9, "A", "T", "T", "G", none, none, none, 50, 12⟩

/-- Example variant for concrete instantiations: a heterozygous substitution
whose first called allele equals the reference allele, with frequencies 10
and 30. -/
def exampleHetRefVariant : Variant :=
  ⟨1, 4, "A", "T", "T", "A", some "G", some 10, some 30, 50, 40⟩

/-! ## Definitions: parameter set selection

From quiver.py:

    def fetchParameterSet(cmpH5, parametersFileOrDirectory, parameterSetName):
        ...
        if options.parameterSet == "best":
            ...
            params = bestParameterSet(...)
        else:
            try:
                params = parameterSets[parameterSetName]
            except:
                die("Quiver: no available parameter set named %s" % parameterSetName)
        return params

`die` (GenomicConsensus.utils, not among the provided source files) is a
fatal abort; it is embedded as the error branch of `Except`.  The loaded
parameter sets are an association list from names to parameter sets, and the
`bestParameterSet` computation for the name "best" is passed in abstractly.
-/

/-- fetchParameterSet from quiver.py. -/
def fetchParameterSet (parameterSets : List (String × α)) (bestChoice : α)
    (parameterSetName : String) : Except String α :=
  if parameterSetName = "best" then Except.ok bestChoice
  else
    match parameterSets.lookup parameterSetName with
    | some params => Except.ok params
    | none =>
        Except.error ("Quiver: no available parameter set named " ++ parameterSetName)

/-- QuiverWorker life cycle skeleton: `onStart` fetches the parameter set
before any window chunk is processed (`QuiverWorker.onStart`, quiver.py), so
a `die` during `onStart` aborts the worker before it produces any window
summary. -/
def quiverWorkerRun (parameterSets : List (String × α)) (bestChoice : α)
    (parameterSetName : String) (chunks : List Window)
    (processChunk : α → Window → β) : Except String (List β) :=
  match fetchParameterSet parameterSets bestChoice parameterSetName with
  | Except.error e => Except.error e
  | Except.ok params => Except.ok (chunks.map (processChunk params))

/-! ## Theorems -/

/-- C4 counterexample: the claim states that a maximal k-spanned interval of
length exactly 10 is retained; on the code the filter is `(e - s) > 10`, so
the k-spanned interval `(0, 10)`, of length exactly 10, is discarded. -/
theorem retainedIntervals_length10_discarded :
    (0, 10) ∈ [((0 : Nat), (10 : Nat))]
    ∧ 10 - 0 ≥ 10
    ∧ (0, 10) ∉ retainedIntervals [(0, 10)] := by
  decide

/-- C4 (amended): a maximal k-spanned interval `(s, e)` is retained by the
Coverage Interval Analyzer step iff its length is strictly greater than 10;
in particular an interval of length exactly 10 is discarded. -/
theorem retainedIntervals_mem_iff (kSpanned : List (Nat × Nat)) (i : Nat × Nat) :
    i ∈ retainedIntervals kSpanned ↔ i ∈ kSpanned ∧ 10 < i.2 - i.1 := by
  simp [retainedIntervals, List.mem_filter]

/-- C8: `filterAlnsForQuiver` returns exactly the alignments whose read
length is at least `readStumpinessThreshold` times the reference span of that
same alignment, preserving order (the output is a sublist of the input) and
multiplicity; alignments with read length strictly below that product are
discarded. -/
theorem filterAlnsForQuiver_spec (refWindow : Window) (alns : List Aln) (t : ℚ) :
    (filterAlnsForQuiver refWindow alns t).Sublist alns
    ∧ (∀ a, a ∈ filterAlnsForQuiver refWindow alns t ↔
        a ∈ alns ∧ t * (a.referenceSpan : ℚ) ≤ (a.readLength : ℚ))
    ∧ (∀ a, (filterAlnsForQuiver refWindow alns t).count a =
        if t * (a.referenceSpan : ℚ) ≤ (a.readLength : ℚ) then alns.count a else 0)
    ∧ (∀ a, (a.readLength : ℚ) < t * (a.referenceSpan : ℚ) →
        a ∉ filterAlnsForQuiver refWindow alns t) := by
  refine ⟨List.filter_sublist alns, ?_, ?_, ?_⟩
  · intro a
    simp [filterAlnsForQuiver, List.mem_filter]
  · intro a
    by_cases h : t * (a.referenceSpan : ℚ) ≤ (a.readLength : ℚ)
    · rw [if_pos h, filterAlnsForQuiver]
      exact List.count_filter (by simpa using h)
    · rw [if_neg h, List.count_eq_zero]
      intro hmem
      rw [filterAlnsForQuiver, List.mem_filter] at hmem
      exact h (of_decide_eq_true hmem.2)
  · intro a h hmem
    rw [filterAlnsForQuiver, List.mem_filter] at hmem
    exact absurd (of_decide_eq_true hmem.2) (not_le.mpr h)

/-- Auxiliary: `sumLens` of the empty chunk list. -/
theorem sumLens_nil : sumLens [] = 0 :=
  rfl

/-- Auxiliary: `sumLens` of a cons. -/
theorem sumLens_cons (w : Nat × Nat) (t : List (Nat × Nat)) :
    sumLens (w :: t) = (w.2 - w.1) + sumLens t := by
  simp [sumLens]

/-- Auxiliary: `sumLens` over an append. -/
theorem sumLens_append (a b : List (Nat × Nat)) :
    sumLens (a ++ b) = sumLens a + sumLens b := by
  simp [sumLens]

/-- Auxiliary: a nonempty list of nonempty windows covers at least one base. -/
theorem sumLens_pos (ws : List (Nat × Nat)) (hpos : ∀ w ∈ ws, w.1 < w.2)
    (hne : ws ≠ []) : 0 < sumLens ws := by
  cases ws with
  | nil => exact absurd rfl hne
  | cons w t =>
    have hw := hpos w (List.mem_cons_self w t)
    rw [sumLens_cons]
    omega

/-- Auxiliary: `basesProcessed` after a fold is the initial value plus the
sum of the window lengths. -/
theorem foldl_onResult_basesProcessed (r : Nat) (ws : List (Nat × Nat)) :
    ∀ st : ContigState,
      (ws.foldl (onResultForContig r) st).basesProcessed
        = st.basesProcessed + sumLens ws := by
  induction ws with
  | nil =>
    intro st
    simp [sumLens_nil]
  | cons w t ih =>
    intro st
    have hstep : (onResultForContig r st w).basesProcessed
        = st.basesProcessed + (w.2 - w.1) := by
      unfold onResultForContig
      split <;> rfl
    rw [List.foldl_cons, ih, hstep, sumLens_cons]
    omega

/-- Auxiliary: while the running sum stays strictly below `requiredBases`, no
flush is performed. -/
theorem foldl_onResult_no_flush (r : Nat) (ws : List (Nat × Nat)) :
    ∀ st : ContigState, st.basesProcessed + sumLens ws < r →
      ws.foldl (onResultForContig r) st
        = ⟨st.basesProcessed + sumLens ws, st.numFlushes⟩ := by
  induction ws with
  | nil =>
    intro st _
    simp [sumLens_nil]
  | cons w t ih =>
    intro st h
    rw [sumLens_cons] at h
    have hne : st.basesProcessed + (w.2 - w.1) ≠ r := by omega
    have hstep : onResultForContig r st w
        = ⟨st.basesProcessed + (w.2 - w.1), st.numFlushes⟩ := by
      unfold onResultForContig
      rw [if_neg hne]
    rw [List.foldl_cons, hstep,
        ih ⟨st.basesProcessed + (w.2 - w.1), st.numFlushes⟩
          (show st.basesProcessed + (w.2 - w.1) + sumLens t < r by omega)]
    simp only [sumLens_cons, ContigState.mk.injEq]
    exact ⟨by omega, trivial⟩

/-- Auxiliary: when the window lengths exactly fill the remaining bases, the
fold ends at `requiredBases` having flushed exactly once more. -/
theorem foldl_onResult_flush_exact (r : Nat) (ws : List (Nat × Nat)) :
    ∀ st : ContigState, (∀ w ∈ ws, w.1 < w.2) →
      st.basesProcessed + sumLens ws = r → ws ≠ [] →
      ws.foldl (onResultForContig r) st = ⟨r, st.numFlushes + 1⟩ := by
  induction ws with
  | nil =>
    intro st _ _ hne
    exact absurd rfl hne
  | cons w t ih =>
    intro st hpos hsum _
    rw [sumLens_cons] at hsum
    rw [List.foldl_cons]
    by_cases ht : t = []
    · subst ht
      rw [sumLens_nil] at hsum
      have hbp : st.basesProcessed + (w.2 - w.1) = r := by omega
      have hstep : onResultForContig r st w = ⟨r, st.numFlushes + 1⟩ := by
        unfold onResultForContig
        rw [if_pos hbp, hbp]
      rw [hstep]
      rfl
    · have htpos : 0 < sumLens t :=
        sumLens_pos t (fun x hx => hpos x (List.mem_cons_of_mem _ hx)) ht
      have hne2 : st.basesProcessed + (w.2 - w.1) ≠ r := by omega
      have hstep : onResultForContig r st w
          = ⟨st.basesProcessed + (w.2 - w.1), st.numFlushes⟩ := by
        unfold onResultForContig
        rw [if_neg hne2]
      rw [hstep]
      exact ih ⟨st.basesProcessed + (w.2 - w.1), st.numFlushes⟩
        (fun x hx => hpos x (List.mem_cons_of_mem _ hx))
        (show st.basesProcessed + (w.2 - w.1) + sumLens t = r by omega) ht

/-- C1: for one contig and any order of chunk arrival, every received chunk
increases `basesProcessed` by exactly `refEnd - refStart`, and the completion
flush fires exactly once, exactly at the receipt where the running sum equals
the precomputed `requiredBases` (hypotheses: each chunk window is nonempty
and the window lengths sum to `requiredBases`, as guaranteed by the exact
window partition of the planner; arrival order is the order of `ws`). -/
theorem resultCollector_contig_accounting (requiredBases : Nat)
    (ws : List (Nat × Nat))
    (hpos : ∀ w ∈ ws, w.1 < w.2)
    (hsum : sumLens ws = requiredBases)
    (hne : ws ≠ []) :
    (∀ n (hn : n < ws.length),
      (collectorContigRun requiredBases (ws.take (n + 1))).basesProcessed
        = (collectorContigRun requiredBases (ws.take n)).basesProcessed
          + ((ws.get ⟨n, hn⟩).2 - (ws.get ⟨n, hn⟩).1))
    ∧ collectorContigRun requiredBases ws = ⟨requiredBases, 1⟩
    ∧ (∀ n, n < ws.length →
        (collectorContigRun requiredBases (ws.take n)).numFlushes = 0)
    ∧ (∀ n, n ≤ ws.length →
        ((collectorContigRun requiredBases (ws.take n)).numFlushes = 1
          ↔ (collectorContigRun requiredBases (ws.take n)).basesProcessed
              = requiredBases)) := by
  have hbp : ∀ l : List (Nat × Nat),
      (collectorContigRun requiredBases l).basesProcessed = sumLens l := by
    intro l
    simpa using foldl_onResult_basesProcessed requiredBases l ⟨0, 0⟩
  have hlt : ∀ n, n < ws.length → sumLens (ws.take n) < requiredBases := by
    intro n hn
    have hsplit : sumLens (ws.take n) + sumLens (ws.drop n) = requiredBases := by
      rw [← sumLens_append, List.take_append_drop, hsum]
    have hdropne : ws.drop n ≠ [] := by
      intro hd
      have := List.drop_eq_nil_iff.mp hd
      omega
    have hdpos : 0 < sumLens (ws.drop n) :=
      sumLens_pos _ (fun x hx => hpos x (List.mem_of_mem_drop hx)) hdropne
    omega
  refine ⟨?_, ?_, ?_, ?_⟩
  · intro n hn
    rw [hbp, hbp]
    have htake : ws.take (n + 1) = ws.take n ++ [ws.get ⟨n, hn⟩] := by
      rw [List.take_succ, List.getElem?_eq_getElem hn]
      simp [List.get_eq_getElem]
    rw [htake, sumLens_append, sumLens_cons, sumLens_nil]
    omega
  · have hfull := foldl_onResult_flush_exact requiredBases ws ⟨0, 0⟩ hpos
      (show (0 : Nat) + sumLens ws = requiredBases by omega) hne
    unfold collectorContigRun
    rw [hfull]
  · intro n hn
    have hf := foldl_onResult_no_flush requiredBases (ws.take n) ⟨0, 0⟩
      (show (0 : Nat) + sumLens (ws.take n) < requiredBases by
        have := hlt n hn; omega)
    unfold collectorContigRun
    rw [hf]
  · intro n hle
    rcases lt_or_eq_of_le hle with hn | hn
    · have hf := foldl_onResult_no_flush requiredBases (ws.take n) ⟨0, 0⟩
        (show (0 : Nat) + sumLens (ws.take n) < requiredBases by
          have := hlt n hn; omega)
      unfold collectorContigRun
      rw [hf]
      have hltn := hlt n hn
      show (0 : Nat) = 1 ↔ 0 + sumLens (ws.take n) = requiredBases
      omega
    · have htake : ws.take n = ws := by
        rw [hn, List.take_length]
      rw [htake]
      have hfull := foldl_onResult_flush_exact requiredBases ws ⟨0, 0⟩ hpos
        (show (0 : Nat) + sumLens ws = requiredBases by omega) hne
      unfold collectorContigRun
      rw [hfull]
      show (0 : Nat) + 1 = 1 ↔ requiredBases = requiredBases
      omega

/-- C1 witness: two chunks of lengths 3 and 2 for a contig with
`requiredBases = 5`: flushing happens exactly at the second receipt. -/
theorem resultCollector_contig_accounting_witness :
    collectorContigRun 5 [(0, 3), (3, 5)] = ⟨5, 1⟩
    ∧ (collectorContigRun 5 ([(0, 3), (3, 5)].take 1)).numFlushes = 0 := by
  have h := resultCollector_contig_accounting 5 [(0, 3), (3, 5)]
    (by decide) (by decide) (by decide)
  exact ⟨h.2.1, h.2.2.1 1 (by decide)⟩

/-- Auxiliary: before the 0-th sentinel nothing is delivered. -/
theorem resultsBeforeNthSentinel_zero (l : List (Option α)) :
    resultsBeforeNthSentinel 0 l = [] := by
  cases l with
  | nil => rfl
  | cons x rest => cases x <;> simp [resultsBeforeNthSentinel]

/-- Auxiliary: closed form of the collector loop on a finite stream, for any
starting sentinel count and accumulator. -/
theorem collectorLoop_eq (nw : Nat) (q : List (Option α)) :
    ∀ (s : Nat) (acc : List α),
      collectorLoop nw s acc q =
        if nw ≤ s + numSentinels q then
          some (acc ++ resultsBeforeNthSentinel (nw - s) q)
        else none := by
  induction q with
  | nil =>
    intro s acc
    by_cases h : nw ≤ s
    · simp [collectorLoop, numSentinels, resultsBeforeNthSentinel, h]
    · simp [collectorLoop, numSentinels, h]
  | cons x rest ih =>
    intro s acc
    cases x with
    | some r =>
      have hsent : numSentinels (some r :: rest) = numSentinels rest := by
        simp [numSentinels]
      by_cases h : nw ≤ s
      · have h2 : nw ≤ s + numSentinels (some r :: rest) := by omega
        have h0 : nw - s = 0 := by omega
        simp [collectorLoop, h, h2, h0, resultsBeforeNthSentinel]
      · have hstep : collectorLoop nw s acc (some r :: rest)
            = collectorLoop nw s (acc ++ [r]) rest := by
          simp [collectorLoop, h]
        have hb : resultsBeforeNthSentinel (nw - s) (some r :: rest)
            = r :: resultsBeforeNthSentinel (nw - s) rest := by
          rw [resultsBeforeNthSentinel, if_neg (show ¬nw - s = 0 by omega)]
        rw [hstep, ih, hsent, hb]
        by_cases h3 : nw ≤ s + numSentinels rest <;> simp [h3]
    | none =>
      have hsent : numSentinels (none :: rest) = numSentinels rest + 1 := by
        simp [numSentinels]
      by_cases h : nw ≤ s
      · have h2 : nw ≤ s + numSentinels (none :: rest) := by omega
        have h0 : nw - s = 0 := by omega
        simp [collectorLoop, h, h2, h0, resultsBeforeNthSentinel]
      · have hstep : collectorLoop nw s acc (none :: rest)
            = collectorLoop nw (s + 1) acc rest := by
          simp [collectorLoop, h]
        rw [hstep, ih, hsent]
        by_cases h1 : nw = s + 1
        · have hb : resultsBeforeNthSentinel (nw - s) (none :: rest) = [] := by
            rw [resultsBeforeNthSentinel, if_neg (show ¬nw - s = 0 by omega),
                if_pos (show nw - s = 1 by omega)]
          have hz : nw - (s + 1) = 0 := by omega
          have hc : nw ≤ s + 1 + numSentinels rest := by omega
          have hc2 : nw ≤ s + (numSentinels rest + 1) := by omega
          rw [hz, resultsBeforeNthSentinel_zero, hb, if_pos hc, if_pos hc2]
        · have hb : resultsBeforeNthSentinel (nw - s) (none :: rest)
              = resultsBeforeNthSentinel (nw - s - 1) rest := by
            rw [resultsBeforeNthSentinel, if_neg (show ¬nw - s = 0 by omega),
                if_neg (show ¬nw - s = 1 by omega)]
          have hz : nw - (s + 1) = nw - s - 1 := by omega
          have hcond : (nw ≤ s + 1 + numSentinels rest)
              ↔ (nw ≤ s + (numSentinels rest + 1)) := by omega
          rw [hb, hz]
          by_cases h3 : nw ≤ s + 1 + numSentinels rest
          · rw [if_pos h3, if_pos (hcond.mp h3)]
          · rw [if_neg h3, if_neg (fun hx => h3 (hcond.mpr hx))]

/-- C2: `ResultCollector._run` terminates iff the delivered stream holds at
least `numWorkers` sentinel items, stopping right at the `numWorkers`-th one;
on termination every non-sentinel item delivered before the `numWorkers`-th
sentinel was passed to `onResult` exactly once, in delivery order; with fewer
sentinels delivered the loop never exits (embedded as the `none` outcome of
an exhausted stream, on which `queue.get()` blocks forever). -/
theorem collectorRun_spec (nw : Nat) (q : List (Option α)) :
    (collectorRun nw q = none ↔ numSentinels q < nw)
    ∧ (nw ≤ numSentinels q →
        collectorRun nw q = some (resultsBeforeNthSentinel nw q)) := by
  have h := collectorLoop_eq nw q 0 []
  rw [Nat.zero_add, Nat.sub_zero, List.nil_append] at h
  rw [collectorRun]
  constructor
  · by_cases h2 : nw ≤ numSentinels q
    · rw [h, if_pos h2]
      constructor
      · intro hsome
        exact absurd hsome (by simp)
      · intro hlt
        omega
    · rw [h, if_neg h2]
      constructor
      · intro _
        omega
      · intro _
        rfl
  · intro h2
    rw [h, if_pos h2]

/-- C2 witness: with two workers, the stream
`[some 7, none, some 8, none, some 9]` terminates the collector right at the
second sentinel after passing exactly `7` and `8` to `onResult`; with three
workers, the stream `[some 7, none]` never lets the loop exit. -/
theorem collectorRun_spec_witness :
    collectorRun 2 [some 7, none, some 8, none, some 9] = some [7, 8]
    ∧ collectorRun 3 [some 7, none] = none := by
  constructor
  · exact ((collectorRun_spec 2 [some 7, none, some 8, none, some 9]).2
      (by decide)).trans (by decide)
  · exact (collectorRun_spec 3 [some 7, none]).1.mpr (by decide)

/-- Auxiliary: two permuted lists, both strictly sorted by window start, are
equal (strict inequality on the key is vacuously antisymmetric). -/
theorem eq_of_perm_of_strictSorted_winStart {l1 l2 : List Consensus}
    (hp : l1.Perm l2)
    (h1 : l1.Pairwise (fun a b => a.winStart < b.winStart))
    (h2 : l2.Pairwise (fun a b => a.winStart < b.winStart)) : l1 = l2 := by
  haveI : IsAntisymm Consensus (fun a b => a.winStart < b.winStart) :=
    ⟨fun a b hab hba => absurd hba (Nat.lt_asymm hab)⟩
  exact List.eq_of_perm_of_sorted hp h1 h2

/-- Auxiliary: merge-sorting by window start yields a list sorted by `≤` on
window start. -/
theorem mergeSort_winStart_sorted (l : List Consensus) :
    (l.mergeSort (fun a b => decide (a.winStart ≤ b.winStart))).Pairwise
      (fun a b => a.winStart ≤ b.winStart) := by
  have h := @List.sorted_mergeSort Consensus
    (fun a b => decide (a.winStart ≤ b.winStart))
    (fun a b c hab hbc =>
      decide_eq_true (Nat.le_trans (of_decide_eq_true hab) (of_decide_eq_true hbc)))
    (fun a b => by
      rcases Nat.le_total a.winStart b.winStart with hh | hh <;> simp [hh])
    l
  exact h.imp (fun hab => of_decide_eq_true hab)

/-- C3: the window-intersection merge for a span is order-independent.  When
the chunks of one contig are pairwise non-overlapping (the planner partition
guarantee) and nonempty, feeding them in any permutation of arrival order
yields the identical concatenated sequence and confidence for the span,
because the chunks intersecting the span are concatenated in ascending-start
order. -/
theorem windowMerge_order_independent (span : Window)
    (chunks chunks2 : List Consensus)
    (hperm : chunks.Perm chunks2)
    (hwf : ∀ c ∈ chunks, c.refWindow.2.1 < c.refWindow.2.2)
    (hdisj : chunks.Pairwise (fun a b => a.refWindow.1 = b.refWindow.1 →
        a.refWindow.2.2 ≤ b.refWindow.2.1 ∨ b.refWindow.2.2 ≤ a.refWindow.2.1)) :
    chunksForSpan chunks span = chunksForSpan chunks2 span := by
  have hpf : (chunks.filter (fun c => windowsIntersect c.refWindow span)).Perm
      (chunks2.filter (fun c => windowsIntersect c.refWindow span)) :=
    hperm.filter _
  have hdisj1 : (chunks.filter (fun c => windowsIntersect c.refWindow span)).Pairwise
      (fun a b => a.refWindow.1 = b.refWindow.1 →
        a.refWindow.2.2 ≤ b.refWindow.2.1 ∨ b.refWindow.2.2 ≤ a.refWindow.2.1) :=
    List.Pairwise.sublist (List.filter_sublist chunks) hdisj
  have hne1 : (chunks.filter (fun c => windowsIntersect c.refWindow span)).Pairwise
      (fun a b => a.winStart ≠ b.winStart) := by
    refine hdisj1.imp_of_mem ?_
    intro a b ha hb hR
    have hpa := (List.mem_filter.mp ha).2
    have hpb := (List.mem_filter.mp hb).2
    rw [windowsIntersect] at hpa hpb
    have hia := (of_decide_eq_true hpa).1
    have hib := (of_decide_eq_true hpb).1
    have hwa := hwf a (List.mem_of_mem_filter ha)
    have hwb := hwf b (List.mem_of_mem_filter hb)
    have hd := hR (hia.trans hib.symm)
    unfold Consensus.winStart
    omega
  have hne2 : (chunks2.filter (fun c => windowsIntersect c.refWindow span)).Pairwise
      (fun a b => a.winStart ≠ b.winStart) :=
    (List.Perm.pairwise_iff (fun h => h.symm) hpf).mp hne1
  have hstrict : ∀ (l : List Consensus),
      l.Pairwise (fun a b => a.winStart ≠ b.winStart) →
      (l.mergeSort (fun a b => decide (a.winStart ≤ b.winStart))).Pairwise
        (fun a b => a.winStart < b.winStart) := by
    intro l hl
    have hsle := mergeSort_winStart_sorted l
    have hlne : (l.mergeSort (fun a b => decide (a.winStart ≤ b.winStart))).Pairwise
        (fun a b => a.winStart ≠ b.winStart) :=
      (List.Perm.pairwise_iff (fun h => h.symm) (List.mergeSort_perm l _)).mpr hl
    exact (hsle.and hlne).imp (fun hab => Nat.lt_of_le_of_ne hab.1 hab.2)
  have hps : ((chunks.filter (fun c => windowsIntersect c.refWindow span)).mergeSort
        (fun a b => decide (a.winStart ≤ b.winStart))).Perm
      ((chunks2.filter (fun c => windowsIntersect c.refWindow span)).mergeSort
        (fun a b => decide (a.winStart ≤ b.winStart))) :=
    ((List.mergeSort_perm _ _).trans hpf).trans (List.mergeSort_perm _ _).symm
  have hsorted := eq_of_perm_of_strictSorted_winStart hps
    (hstrict _ hne1) (hstrict _ hne2)
  unfold chunksForSpan joinChunks
  rw [hsorted]

/-- C3 witness: two non-overlapping chunks of contig 0 delivered in the two
possible arrival orders produce the same merged output for the whole-contig
span. -/
theorem windowMerge_order_independent_witness :
    chunksForSpan
        [(⟨(0, 5, 10), "CCCCC", [1, 1, 1, 1, 1]⟩ : Consensus),
         (⟨(0, 0, 5), "AAAAA", [2, 2, 2, 2, 2]⟩ : Consensus)] (0, 0, 10)
      = chunksForSpan
        [(⟨(0, 0, 5), "AAAAA", [2, 2, 2, 2, 2]⟩ : Consensus),
         (⟨(0, 5, 10), "CCCCC", [1, 1, 1, 1, 1]⟩ : Consensus)] (0, 0, 10) :=
  windowMerge_order_independent (0, 0, 10) _ _
    (by decide) (by decide) (by decide)

/-- C7: when fewer than `minPoaCoverage` clipped alignments fully span the
sub-interval, the engine does not fail but produces a placeholder
no-evidence consensus built by the configured factory from the reference
sub-sequence, with zero confidence at every position and confidence length
equal to the sequence length. -/
theorem consensusForInterval_noEvidence (minPoaCoverage : Nat) (subWin : Window)
    (intRefSeq : String) (clippedAlns : List Aln) (interval : Nat × Nat)
    (noEvidenceConsensusFactory : String → String) (realCss : Consensus)
    (hlow : (clippedAlns.filter
        (fun aln => aln.spansReferenceRange interval.1 interval.2)).length
      < minPoaCoverage) :
    (consensusForInterval minPoaCoverage subWin intRefSeq clippedAlns interval
        noEvidenceConsensusFactory realCss).refWindow = subWin
    ∧ (consensusForInterval minPoaCoverage subWin intRefSeq clippedAlns interval
        noEvidenceConsensusFactory realCss).sequence
      = noEvidenceConsensusFactory intRefSeq
    ∧ (consensusForInterval minPoaCoverage subWin intRefSeq clippedAlns interval
        noEvidenceConsensusFactory realCss).confidence.length
      = (consensusForInterval minPoaCoverage subWin intRefSeq clippedAlns interval
          noEvidenceConsensusFactory realCss).sequence.length
    ∧ ∀ x ∈ (consensusForInterval minPoaCoverage subWin intRefSeq clippedAlns interval
        noEvidenceConsensusFactory realCss).confidence, x = 0 := by
  unfold consensusForInterval
  rw [if_neg (Nat.not_le.mpr hlow)]
  refine ⟨rfl, rfl, by simp, ?_⟩
  intro x hx
  exact List.eq_of_mem_replicate hx

/-- C7 witness: an empty alignment list with `minPoaCoverage = 3` over the
reference sub-sequence `ACGT`, with the copy-reference no-evidence policy. -/
theorem consensusForInterval_noEvidence_witness :
    (consensusForInterval 3 (0, 0, 4) "ACGT" [] (0, 4) (fun s => s)
        ⟨(0, 0, 0), "", []⟩).sequence = "ACGT"
    ∧ (consensusForInterval 3 (0, 0, 4) "ACGT" [] (0, 4) (fun s => s)
        ⟨(0, 0, 0), "", []⟩).confidence.length
      = (consensusForInterval 3 (0, 0, 4) "ACGT" [] (0, 4) (fun s => s)
          ⟨(0, 0, 0), "", []⟩).sequence.length := by
  have h := consensusForInterval_noEvidence 3 (0, 0, 4) "ACGT" [] (0, 4)
    (fun s => s) ⟨(0, 0, 0), "", []⟩ (by decide)
  exact ⟨h.2.1, h.2.2.1⟩

/-- C6: `QuiverWorker.onChunk` re-maps the enlarged-window consensus to the
original window bounds: the summary carries the original (not enlarged)
window coordinates, its sequence and confidence are the slices of the
enlarged-window consensus between the offsets that the target-to-query
mapping assigns to the original start and end, and its variants are exactly
the computed variants with `refStart ≤ v.refStart < refEnd`. -/
theorem onChunk_spec (referenceWindow : Window) (contigLength overlap : Nat)
    (targetPositions : List Nat) (cssSeq : String) (cssConf : List Nat)
    (variants_ : List Variant) :
    (onChunk referenceWindow contigLength overlap targetPositions cssSeq cssConf
        variants_).referenceId = referenceWindow.1
    ∧ (onChunk referenceWindow contigLength overlap targetPositions cssSeq cssConf
        variants_).referenceStart = referenceWindow.2.1
    ∧ (onChunk referenceWindow contigLength overlap targetPositions cssSeq cssConf
        variants_).referenceEnd = referenceWindow.2.2
    ∧ (onChunk referenceWindow contigLength overlap targetPositions cssSeq cssConf
        variants_).consensus
      = ((cssSeq.toList.take (targetPositions.getD
            (referenceWindow.2.2
              - (enlargedReferenceWindow referenceWindow contigLength overlap).2.1)
            0)).drop (targetPositions.getD
            (referenceWindow.2.1
              - (enlargedReferenceWindow referenceWindow contigLength overlap).2.1)
            0)).asString
    ∧ (onChunk referenceWindow contigLength overlap targetPositions cssSeq cssConf
        variants_).qv
      = (cssConf.take (targetPositions.getD
            (referenceWindow.2.2
              - (enlargedReferenceWindow referenceWindow contigLength overlap).2.1)
            0)).drop (targetPositions.getD
            (referenceWindow.2.1
              - (enlargedReferenceWindow referenceWindow contigLength overlap).2.1)
            0)
    ∧ ∀ v, v ∈ (onChunk referenceWindow contigLength overlap targetPositions cssSeq
        cssConf variants_).variants
        ↔ v ∈ variants_ ∧ referenceWindow.2.1 ≤ v.refStart
            ∧ v.refStart < referenceWindow.2.2 := by
  refine ⟨rfl, rfl, rfl, rfl, rfl, ?_⟩
  intro v
  simp [onChunk, List.mem_filter, and_assoc]

/-- C9: requesting a named parameter set other than `best` that is not among
the loaded parameter sets hits the `die` failure path of
`fetchParameterSet`, and since the fetch happens in `onStart`, the worker
aborts before processing any window. -/
theorem fetchParameterSet_unknown_dies (parameterSets : List (String × α))
    (bestChoice : α) (parameterSetName : String) (chunks : List Window)
    (processChunk : α → Window → β)
    (hname : parameterSetName ≠ "best")
    (hmiss : parameterSets.lookup parameterSetName = none) :
    fetchParameterSet parameterSets bestChoice parameterSetName
      = Except.error ("Quiver: no available parameter set named " ++ parameterSetName)
    ∧ quiverWorkerRun parameterSets bestChoice parameterSetName chunks processChunk
      = Except.error ("Quiver: no available parameter set named " ++ parameterSetName) := by
  have h1 : fetchParameterSet parameterSets bestChoice parameterSetName
      = Except.error ("Quiver: no available parameter set named " ++ parameterSetName) := by
    unfold fetchParameterSet
    rw [if_neg hname, hmiss]
  refine ⟨h1, ?_⟩
  unfold quiverWorkerRun
  rw [h1]

/-- C9 witness: the parameter set name `unknown` is absent from a loaded
table holding only `C2.AllQVsModel`, so the worker run dies without
producing any window summary. -/
theorem fetchParameterSet_unknown_dies_witness :
    quiverWorkerRun [("C2.AllQVsModel", 1)] 0 "unknown" [(0, 0, 10)]
        (fun p _ => p)
      = Except.error ("Quiver: no available parameter set named " ++ "unknown") :=
  (fetchParameterSet_unknown_dies [("C2.AllQVsModel", 1)] 0 "unknown" [(0, 0, 10)]
    (fun p _ => p) (by decide) (by decide)).2

/-- Auxiliary: strings differing in their first character differ. -/
theorem ne_of_data_head {a b : String} {c d : Char} {s t : List Char}
    (ha : a.data = c :: s) (hb : b.data = d :: t) (hcd : c ≠ d) : a ≠ b := by
  intro h
  subst h
  rw [ha] at hb
  injection hb with h1 _
  exact hcd h1

/-- Auxiliary: a failed-quality filter identifier is never `PASS`. -/
theorem q_prefix_ne_PASS (s : String) : "q" ++ s ≠ "PASS" :=
  ne_of_data_head (by rw [String.data_append]; rfl) rfl (by decide)

/-- Auxiliary: a failed-coverage filter identifier is never `PASS`. -/
theorem c_prefix_ne_PASS (s : String) : "c" ++ s ≠ "PASS" :=
  ne_of_data_head (by rw [String.data_append]; rfl) rfl (by decide)

/-- Auxiliary: FILTER value when both thresholds fail. -/
theorem vcfFilter_eval_both (mc mv : Nat) (var : Variant)
    (h1 : var.confidence < mc) (h2 : var.coverage < mv) :
    vcfFilter mc mv var = "q" ++ toString mc ++ ";" ++ ("c" ++ toString mv) := by
  unfold vcfFilter
  rw [if_pos h1, if_pos h2]
  rfl

/-- Auxiliary: FILTER value when only the confidence threshold fails. -/
theorem vcfFilter_eval_q (mc mv : Nat) (var : Variant)
    (h1 : var.confidence < mc) (h2 : ¬var.coverage < mv) :
    vcfFilter mc mv var = "q" ++ toString mc := by
  unfold vcfFilter
  rw [if_pos h1, if_neg h2]
  rfl

/-- Auxiliary: FILTER value when only the coverage threshold fails. -/
theorem vcfFilter_eval_c (mc mv : Nat) (var : Variant)
    (h1 : ¬var.confidence < mc) (h2 : var.coverage < mv) :
    vcfFilter mc mv var = "c" ++ toString mv := by
  unfold vcfFilter
  rw [if_neg h1, if_pos h2]
  rfl

/-- Auxiliary: FILTER value when both thresholds pass. -/
theorem vcfFilter_eval_pass (mc mv : Nat) (var : Variant)
    (h1 : ¬var.confidence < mc) (h2 : ¬var.coverage < mv) :
    vcfFilter mc mv var = "PASS" := by
  unfold vcfFilter
  rw [if_neg h1, if_neg h2]
  rfl

/-- Auxiliary: the FILTER column is `PASS` iff both thresholds are met. -/
theorem vcfFilter_pass_iff (mc mv : Nat) (var : Variant) :
    vcfFilter mc mv var = "PASS" ↔ mc ≤ var.confidence ∧ mv ≤ var.coverage := by
  by_cases h1 : var.confidence < mc
  · by_cases h2 : var.coverage < mv
    · rw [vcfFilter_eval_both mc mv var h1 h2]
      constructor
      · intro h
        exfalso
        rw [String.append_assoc, String.append_assoc] at h
        exact q_prefix_ne_PASS _ h
      · intro hc
        exact absurd hc.1 (by omega)
    · rw [vcfFilter_eval_q mc mv var h1 h2]
      constructor
      · intro h
        exact absurd h (q_prefix_ne_PASS _)
      · intro hc
        exact absurd hc.1 (by omega)
  · by_cases h2 : var.coverage < mv
    · rw [vcfFilter_eval_c mc mv var h1 h2]
      constructor
      · intro h
        exact absurd h (c_prefix_ne_PASS _)
      · intro hc
        exact absurd hc.2 (by omega)
    · rw [vcfFilter_eval_pass mc mv var h1 h2]
      constructor
      · intro _
        exact ⟨by omega, by omega⟩
      · intro _
        rfl

/-- Auxiliary: no allele frequency field when the variant is homozygous or
its frequencies are unknown. -/
theorem vcfVariantFrequency_none (fmt : ℚ → String) (var : Variant)
    (labels : List Nat)
    (h : var.frequency1 = none ∨ var.isHeterozygous = false) :
    vcfVariantFrequency fmt var labels = none := by
  unfold vcfVariantFrequency
  rcases h with h | h
  · rw [h]
  · cases hf : var.frequency1 with
    | none => rfl
    | some f1 => simp [h]

/-- Auxiliary: the allele frequency field for a heterozygous variant with a
known first frequency. -/
theorem vcfVariantFrequency_some (fmt : ℚ → String) (var : Variant)
    (labels : List Nat) (f1 : Nat)
    (hf : var.frequency1 = some f1) (hh : var.isHeterozygous = true) :
    vcfVariantFrequency fmt var labels
      = some ("AF=" ++ pyJoin ","
          ((labels.filterMap
              (fun l => if l = 1 then var.frequency1 else var.frequency2)).map
            (fun f => fmt ((f : ℚ)
              / ((f1 : ℚ) + ((var.frequency2.getD 0 : Nat) : ℚ)))))) := by
  unfold vcfVariantFrequency
  rw [hf]
  simp [hh]

/-- Auxiliary: INFO value without an allele frequency field. -/
theorem vcfInfo_eval_none (fmt : ℚ → String) (var : Variant) (labels : List Nat)
    (h : vcfVariantFrequency fmt var labels = none) :
    vcfInfo fmt var labels = "DP=" ++ toString var.coverage := by
  unfold vcfInfo
  rw [h]

/-- Auxiliary: INFO value with an allele frequency field. -/
theorem vcfInfo_eval_some (fmt : ℚ → String) (var : Variant) (labels : List Nat)
    (s : String) (h : vcfVariantFrequency fmt var labels = some s) :
    vcfInfo fmt var labels = "DP=" ++ toString var.coverage ++ ";" ++ s := by
  unfold vcfInfo
  rw [h]

/-- Auxiliary: POS, REF and labels on the insertion/deletion branch. -/
theorem vcfPRAL_indel (var : Variant) (h : isIndelVariant var = true) :
    (vcfPosRefAltLabels var).1 = var.refStart
    ∧ (vcfPosRefAltLabels var).2.1 = var.refPrev ++ var.refSeq
    ∧ (vcfPosRefAltLabels var).2.2.2 = [1, 2] := by
  unfold vcfPosRefAltLabels
  rw [h, if_pos rfl]
  exact ⟨rfl, rfl, rfl⟩

/-- Auxiliary: ALT on the homozygous insertion/deletion branch. -/
theorem vcfPRAL_indel_hom_alt (var : Variant) (h : isIndelVariant var = true)
    (hh : var.isHeterozygous = false) :
    (vcfPosRefAltLabels var).2.2.1 = var.readPrev ++ var.readSeq1 := by
  unfold vcfPosRefAltLabels
  rw [h, if_pos rfl]
  simp [hh]

/-- Auxiliary: ALT on the heterozygous insertion/deletion branch. -/
theorem vcfPRAL_indel_het_alt (var : Variant) (s2 : String)
    (h : isIndelVariant var = true) (hs2 : var.readSeq2 = some s2) :
    (vcfPosRefAltLabels var).2.2.1
      = var.readPrev ++ var.readSeq1 ++ "," ++ (var.readPrev ++ s2) := by
  have hh : var.isHeterozygous = true := by
    simp [Variant.isHeterozygous, hs2]
  unfold vcfPosRefAltLabels
  rw [h, if_pos rfl]
  simp [hh, hs2, pyJoin]

/-- Auxiliary: the whole tuple on the homozygous substitution branch. -/
theorem vcfPRAL_subst_hom (var : Variant) (h : isIndelVariant var = false)
    (hh : var.isHeterozygous = false) :
    vcfPosRefAltLabels var = (var.refStart + 1, var.refSeq, var.readSeq1, [1, 2]) := by
  unfold vcfPosRefAltLabels
  rw [h, if_neg (by decide : ¬(false = true))]
  simp [hh]

/-- Auxiliary: the whole tuple on the heterozygous substitution branch when
the first called allele equals the reference. -/
theorem vcfPRAL_subst_het_r1eq (var : Variant) (s2 : String)
    (h : isIndelVariant var = false) (hs2 : var.readSeq2 = some s2)
    (e1 : var.refSeq = var.readSeq1) :
    vcfPosRefAltLabels var = (var.refStart + 1, var.refSeq, s2, [2]) := by
  have hh : var.isHeterozygous = true := by
    simp [Variant.isHeterozygous, hs2]
  unfold vcfPosRefAltLabels
  rw [h, if_neg (by decide : ¬(false = true))]
  simp [hh, e1, hs2]

/-- Auxiliary: the whole tuple on the heterozygous substitution branch when
the second called allele equals the reference. -/
theorem vcfPRAL_subst_het_r2eq (var : Variant) (s2 : String)
    (h : isIndelVariant var = false) (hs2 : var.readSeq2 = some s2)
    (e1 : ¬var.refSeq = var.readSeq1) (e2 : s2 = var.refSeq) :
    vcfPosRefAltLabels var = (var.refStart + 1, var.refSeq, var.readSeq1, [1]) := by
  have hh : var.isHeterozygous = true := by
    simp [Variant.isHeterozygous, hs2]
  unfold vcfPosRefAltLabels
  rw [h, if_neg (by decide : ¬(false = true))]
  simp [hh, e1, hs2, e2]

/-- Auxiliary: the whole tuple on the heterozygous substitution branch when
both called alleles differ from the reference. -/
theorem vcfPRAL_subst_het_diff (var : Variant) (s2 : String)
    (h : isIndelVariant var = false) (hs2 : var.readSeq2 = some s2)
    (e1 : ¬var.refSeq = var.readSeq1) (e2 : ¬s2 = var.refSeq) :
    vcfPosRefAltLabels var
      = (var.refStart + 1, var.refSeq, var.readSeq1 ++ "," ++ s2, [1, 2]) := by
  have hh : var.isHeterozygous = true := by
    simp [Variant.isHeterozygous, hs2]
  unfold vcfPosRefAltLabels
  rw [h, if_neg (by decide : ¬(false = true))]
  simp [hh, e1, hs2, e2, pyJoin]

/-- C5: shape of the VCF data lines produced by
`VariantsVcfWriter.writeVariants`: one line per variant; CHROM is the full
reference name and ID is `.`; QUAL is the confidence; FILTER is `PASS`
exactly when the confidence and coverage thresholds are met and otherwise the
semicolon-joined failed identifiers `q<minConfidence>` and `c<minCoverage>`;
INFO always starts with `DP=<coverage>` and carries an `AF=` field exactly
for heterozygous calls with known frequencies; a substitution is reported at
`refStart + 1` with REF the reference allele and ALT the called alleles,
while an insertion or deletion is anchored at `refStart` on the previous base
with REF `refPrev ++ refSeq` and ALT `readPrev ++ readSeq` per called
allele. -/
theorem writeVariants_spec (minConfidence minCoverage : Nat)
    (idToFullName : Nat → String) (fmt : ℚ → String)
    (vars : List Variant) (var : Variant) :
    writeVariants minConfidence minCoverage idToFullName fmt vars
      = vars.map (writeVariant minConfidence minCoverage idToFullName fmt)
    ∧ (writeVariant minConfidence minCoverage idToFullName fmt var).chrom
        = idToFullName var.refId
    ∧ (writeVariant minConfidence minCoverage idToFullName fmt var).id = "."
    ∧ (writeVariant minConfidence minCoverage idToFullName fmt var).qual
        = var.confidence
    ∧ ((writeVariant minConfidence minCoverage idToFullName fmt var).filter
          = "PASS"
        ↔ minConfidence ≤ var.confidence ∧ minCoverage ≤ var.coverage)
    ∧ (var.confidence < minConfidence → var.coverage < minCoverage →
        (writeVariant minConfidence minCoverage idToFullName fmt var).filter
          = "q" ++ toString minConfidence ++ ";" ++ ("c" ++ toString minCoverage))
    ∧ (var.confidence < minConfidence → minCoverage ≤ var.coverage →
        (writeVariant minConfidence minCoverage idToFullName fmt var).filter
          = "q" ++ toString minConfidence)
    ∧ (minConfidence ≤ var.confidence → var.coverage < minCoverage →
        (writeVariant minConfidence minCoverage idToFullName fmt var).filter
          = "c" ++ toString minCoverage)
    ∧ (¬(var.isHeterozygous = true ∧ var.frequency1.isSome = true) →
        (writeVariant minConfidence minCoverage idToFullName fmt var).info
          = "DP=" ++ toString var.coverage)
    ∧ (var.isHeterozygous = true → var.frequency1.isSome = true →
        ∃ s, (writeVariant minConfidence minCoverage idToFullName fmt var).info
          = "DP=" ++ toString var.coverage ++ ";" ++ ("AF=" ++ s))
    ∧ (isIndelVariant var = false →
        (writeVariant minConfidence minCoverage idToFullName fmt var).pos
            = var.refStart + 1
        ∧ (writeVariant minConfidence minCoverage idToFullName fmt var).ref
            = var.refSeq)
    ∧ (isIndelVariant var = false → var.isHeterozygous = false →
        (writeVariant minConfidence minCoverage idToFullName fmt var).alt
          = var.readSeq1)
    ∧ (isIndelVariant var = false → ∀ s2, var.readSeq2 = some s2 →
        ¬var.refSeq = var.readSeq1 → ¬s2 = var.refSeq →
        (writeVariant minConfidence minCoverage idToFullName fmt var).alt
          = var.readSeq1 ++ "," ++ s2)
    ∧ (isIndelVariant var = true →
        (writeVariant minConfidence minCoverage idToFullName fmt var).pos
            = var.refStart
        ∧ (writeVariant minConfidence minCoverage idToFullName fmt var).ref
            = var.refPrev ++ var.refSeq)
    ∧ (isIndelVariant var = true → var.isHeterozygous = false →
        (writeVariant minConfidence minCoverage idToFullName fmt var).alt
          = var.readPrev ++ var.readSeq1)
    ∧ (isIndelVariant var = true → ∀ s2, var.readSeq2 = some s2 →
        (writeVariant minConfidence minCoverage idToFullName fmt var).alt
          = var.readPrev ++ var.readSeq1 ++ "," ++ (var.readPrev ++ s2)) := by
  refine ⟨rfl, rfl, rfl, rfl, vcfFilter_pass_iff minConfidence minCoverage var,
    ?_, ?_, ?_, ?_, ?_, ?_, ?_, ?_, ?_, ?_, ?_⟩
  · intro h1 h2
    exact vcfFilter_eval_both minConfidence minCoverage var h1 h2
  · intro h1 h2
    exact vcfFilter_eval_q minConfidence minCoverage var h1 (not_lt.mpr h2)
  · intro h1 h2
    exact vcfFilter_eval_c minConfidence minCoverage var (not_lt.mpr h1) h2
  · intro h
    refine vcfInfo_eval_none fmt var _ (vcfVariantFrequency_none fmt var _ ?_)
    cases hhet : var.isHeterozygous with
    | false => exact Or.inr rfl
    | true =>
      refine Or.inl ?_
      by_cases hf : var.frequency1.isSome = true
      · exact absurd ⟨hhet, hf⟩ h
      · exact Option.not_isSome_iff_eq_none.mp hf
  · intro hhet hf
    obtain ⟨f1, hf1⟩ := Option.isSome_iff_exists.mp hf
    exact ⟨_, vcfInfo_eval_some fmt var _ _
      (vcfVariantFrequency_some fmt var _ f1 hf1 hhet)⟩
  · intro h
    cases hhet : var.isHeterozygous with
    | false =>
      rw [show (writeVariant minConfidence minCoverage idToFullName fmt var).pos
            = (vcfPosRefAltLabels var).1 from rfl,
          show (writeVariant minConfidence minCoverage idToFullName fmt var).ref
            = (vcfPosRefAltLabels var).2.1 from rfl,
          vcfPRAL_subst_hom var h hhet]
      exact ⟨rfl, rfl⟩
    | true =>
      have hsome : var.readSeq2.isSome = true := hhet
      obtain ⟨s2, hs2⟩ := Option.isSome_iff_exists.mp hsome
      rw [show (writeVariant minConfidence minCoverage idToFullName fmt var).pos
            = (vcfPosRefAltLabels var).1 from rfl,
          show (writeVariant minConfidence minCoverage idToFullName fmt var).ref
            = (vcfPosRefAltLabels var).2.1 from rfl]
      by_cases e1 : var.refSeq = var.readSeq1
      · rw [vcfPRAL_subst_het_r1eq var s2 h hs2 e1]
        exact ⟨rfl, rfl⟩
      · by_cases e2 : s2 = var.refSeq
        · rw [vcfPRAL_subst_het_r2eq var s2 h hs2 e1 e2]
          exact ⟨rfl, rfl⟩
        · rw [vcfPRAL_subst_het_diff var s2 h hs2 e1 e2]
          exact ⟨rfl, rfl⟩
  · intro h hhet
    exact congrArg (fun p => p.2.2.1) (vcfPRAL_subst_hom var h hhet)
  · intro h s2 hs2 e1 e2
    exact congrArg (fun p => p.2.2.1) (vcfPRAL_subst_het_diff var s2 h hs2 e1 e2)
  · intro h
    have hi := vcfPRAL_indel var h
    exact ⟨hi.1, hi.2.1⟩
  · intro h hhet
    exact vcfPRAL_indel_hom_alt var h hhet
  · intro h s2 hs2
    exact vcfPRAL_indel_het_alt var s2 h hs2

/-- C5 witness: the spec test vector, a homozygous substitution at 0-based
position 9 with reference `A`, call `G`, coverage 12, confidence 50, under
thresholds `minConfidence = 30`, `minCoverage = 5`. -/
theorem writeVariants_spec_witness :
    (writeVariant 30 5 (fun _ => "chr1") (fun _ => "") exampleSubstVariant).pos = 10
    ∧ (writeVariant 30 5 (fun _ => "chr1") (fun _ => "") exampleSubstVariant).ref = "A"
    ∧ (writeVariant 30 5 (fun _ => "chr1") (fun _ => "") exampleSubstVariant).alt = "G"
    ∧ (writeVariant 30 5 (fun _ => "chr1") (fun _ => "") exampleSubstVariant).qual = 50
    ∧ (writeVariant 30 5 (fun _ => "chr1") (fun _ => "") exampleSubstVariant).filter
        = "PASS"
    ∧ (writeVariant 30 5 (fun _ => "chr1") (fun _ => "") exampleSubstVariant).info
        = "DP=12" := by
  have h := writeVariants_spec 30 5 (fun _ => "chr1") (fun _ => "")
    [exampleSubstVariant] exampleSubstVariant
  refine ⟨?_, ?_, ?_, ?_, ?_, ?_⟩
  · exact (h.2.2.2.2.2.2.2.2.2.2.1 (by decide)).1
  · exact (h.2.2.2.2.2.2.2.2.2.2.1 (by decide)).2
  · exact h.2.2.2.2.2.2.2.2.2.2.2.1 (by decide) (by decide)
  · exact h.2.2.2.1
  · exact h.2.2.2.2.1.mpr (by decide)
  · exact (h.2.2.2.2.2.2.2.2.1 (by decide)).trans (by decide)

/-- C10: for a heterozygous substitution in which exactly one called allele
equals the reference, only the non-reference allele is reported in ALT (a
single allele, not a comma-joined pair), and the AF info field reports only
the frequency of that allele, normalized by the sum of the two
frequencies. -/
theorem vcfWriter_het_ref_allele (minConfidence minCoverage : Nat)
    (idToFullName : Nat → String) (fmt : ℚ → String) (var : Variant)
    (s2 : String) (f1 f2 : Nat)
    (hs2 : var.readSeq2 = some s2)
    (hrne : var.refSeq ≠ "") (hr1ne : var.readSeq1 ≠ "") (hs2ne : s2 ≠ "")
    (hf1 : var.frequency1 = some f1) (hf2 : var.frequency2 = some f2) :
    (var.refSeq = var.readSeq1 → ¬s2 = var.refSeq →
      (writeVariant minConfidence minCoverage idToFullName fmt var).alt = s2
      ∧ (writeVariant minConfidence minCoverage idToFullName fmt var).info
        = "DP=" ++ toString var.coverage ++ ";"
          ++ ("AF=" ++ fmt ((f2 : ℚ) / ((f1 : ℚ) + (f2 : ℚ)))))
    ∧ (¬var.refSeq = var.readSeq1 → s2 = var.refSeq →
      (writeVariant minConfidence minCoverage idToFullName fmt var).alt
          = var.readSeq1
      ∧ (writeVariant minConfidence minCoverage idToFullName fmt var).info
        = "DP=" ++ toString var.coverage ++ ";"
          ++ ("AF=" ++ fmt ((f1 : ℚ) / ((f1 : ℚ) + (f2 : ℚ))))) := by
  have hh : var.isHeterozygous = true := by
    simp [Variant.isHeterozygous, hs2]
  have hind : isIndelVariant var = false := by
    unfold isIndelVariant
    simp [hrne, hr1ne, hs2, hs2ne]
  constructor
  · intro e1 e2
    have htuple := vcfPRAL_subst_het_r1eq var s2 hind hs2 e1
    have hlab : (vcfPosRefAltLabels var).2.2.2 = [2] :=
      congrArg (fun p => p.2.2.2) htuple
    refine ⟨congrArg (fun p => p.2.2.1) htuple, ?_⟩
    have hfreq2 : vcfVariantFrequency fmt var [2]
        = some ("AF=" ++ fmt ((f2 : ℚ) / ((f1 : ℚ) + (f2 : ℚ)))) := by
      rw [vcfVariantFrequency_some fmt var [2] f1 hf1 hh]
      simp [hf2, pyJoin]
    exact vcfInfo_eval_some fmt var _ _ (by rw [hlab]; exact hfreq2)
  · intro e1 e2
    have htuple := vcfPRAL_subst_het_r2eq var s2 hind hs2 e1 e2
    have hlab : (vcfPosRefAltLabels var).2.2.2 = [1] :=
      congrArg (fun p => p.2.2.2) htuple
    refine ⟨congrArg (fun p => p.2.2.1) htuple, ?_⟩
    have hfreq1 : vcfVariantFrequency fmt var [1]
        = some ("AF=" ++ fmt ((f1 : ℚ) / ((f1 : ℚ) + (f2 : ℚ)))) := by
      rw [vcfVariantFrequency_some fmt var [1] f1 hf1 hh]
      simp [hf1, hf2, pyJoin]
    exact vcfInfo_eval_some fmt var _ _ (by rw [hlab]; exact hfreq1)

/-- C10 witness: a heterozygous substitution calling `A`/`G` over reference
`A` with frequencies 10 and 30 reports only `G` in ALT and a single
normalized frequency 30/40. -/
theorem vcfWriter_het_ref_allele_witness :
    (writeVariant 30 5 (fun _ => "chr1") (fun _ => "0.75")
        exampleHetRefVariant).alt = "G"
    ∧ (writeVariant 30 5 (fun _ => "chr1") (fun _ => "0.75")
        exampleHetRefVariant).info = "DP=40;AF=0.75" := by
  have h := vcfWriter_het_ref_allele 30 5 (fun _ => "chr1") (fun _ => "0.75")
    exampleHetRefVariant "G" 10 30 rfl (by decide) (by decide) (by decide) rfl rfl
  have h1 := h.1 rfl (by decide)
  exact ⟨h1.1, h1.2.trans (by decide)⟩

/-- C8 witness: with threshold 1/10 over a window of span 10, an alignment
with 5 read bases is kept and an alignment with no read content is
discarded. -/
theorem filterAlnsForQuiver_spec_witness :
    (⟨0, 10, 0⟩ : Aln)
        ∉ filterAlnsForQuiver (0, 0, 10) [⟨0, 10, 5⟩, ⟨0, 10, 0⟩] (1 / 10)
    ∧ (⟨0, 10, 5⟩ : Aln)
        ∈ filterAlnsForQuiver (0, 0, 10) [⟨0, 10, 5⟩, ⟨0, 10, 0⟩] (1 / 10) := by
  constructor
  · exact (filterAlnsForQuiver_spec (0, 0, 10) [⟨0, 10, 5⟩, ⟨0, 10, 0⟩]
      (1 / 10)).2.2.2 ⟨0, 10, 0⟩ (by norm_num [Aln.referenceSpan])
  · exact ((filterAlnsForQuiver_spec (0, 0, 10) [⟨0, 10, 5⟩, ⟨0, 10, 0⟩]
      (1 / 10)).2.1 ⟨0, 10, 5⟩).mpr ⟨by decide, by norm_num [Aln.referenceSpan]⟩

end GenomicConsensus
